import Mathlib

/-!
Verification of the go-sqlssx package against its specification.

This file gives a shallow embedding of the package's pure logic.  The
database driver (go-sql-driver/mysql) is an external collaborator: calls
into it are modelled by explicit parameters carrying the driver's
response (query errors, scanned values), and the effect of the DDL
statements issued by `InitTable` is modelled by a small MySQL-style
semantics on the table's column list (`applyCreate`, `applyChange`,
`applyAdd`, `applyModify`).  Machine integers (`uint64` counts) are
modelled as `Nat`, Go's `error` values as `Option` of a structured
error, and Go's nil slices as `Option` of a list.
-/

namespace Sqlssx

/-- Go `Error` struct: `{operation, statement, goerr}`.  The wrapped Go
error value is kept as its message string. -/
structure SqlError where
  operation : String
  statement : String
  message : String
  deriving DecidableEq, Repr

/-- Go `Condition` struct with fields `Statement` and `Glue`. -/
structure Condition where
  Statement : String
  Glue : String
  deriving DecidableEq, Repr

/-- Go `glueConditions`: concatenates each condition's statement, and
after each condition whose glue is non-empty appends a space, the glue
and a space (the newer source file's version). -/
def glueConditions (conditions : List Condition) : String :=
  conditions.foldl
    (fun statement cond =>
      let statement := statement ++ cond.Statement
      if cond.Glue ≠ "" then statement ++ " " ++ cond.Glue ++ " " else statement)
    ""

/-- Go `constructSelect`: `SELECT <columns> FROM <table>` with a WHERE
clause appended exactly when the conditions slice is non-nil (`none`
models a nil slice). -/
def constructSelect (table : String) (columns : List String)
    (conditions : Option (List Condition)) : String :=
  let statement := "SELECT " ++ String.intercalate ", " columns ++ " FROM " ++ table
  match conditions with
  | none => statement
  | some conds => statement ++ " WHERE " ++ glueConditions conds

/-- Go package-level `countStr = []string{"COUNT(*)"}`. -/
def countStr : List String := ["COUNT(*)"]

/-- Row cursor handles (`*sql.Rows`) are opaque to this code; any
inhabited type with decidable equality does. -/
abbrev Rows := Nat

/-- Go `Database.Count`.  `qerr` is the driver's response to the
`QueryRow` call (`some e` = the prepared query failed); `scanRes` is the
driver's response to `Scan` (`none` = the scan failed, `some n` = it
stored `n`).  The result is `(count, err, issued statements)`.  The Go
code ignores the return value of `sqlRow.Scan(&count)`, so on a scan
failure `count` keeps its zero value and `err` stays nil. -/
def Count (table : String) (conditions : Option (List Condition))
    (qerr : Option SqlError) (scanRes : Option Nat) :
    Nat × Option SqlError × List String :=
  let statement := constructSelect table countStr conditions
  match qerr with
  | some e => (0, some e, [statement])
  | none =>
    match scanRes with
    | none => (0, none, [statement])
    | some n => (n, none, [statement])

/-- Go `Database.Select`.  Builds the SELECT statement, runs `Count`
first, and returns early (nil row cursor) when the count errored or is
zero; only otherwise is the SELECT statement issued via `Query`, whose
driver response is `queryRes`.  The final component lists the issued
query statements in order. -/
def Select (table : String) (columns : List String)
    (conditions : Option (List Condition))
    (qerr : Option SqlError) (scanRes : Option Nat)
    (queryRes : Option Rows × Option SqlError) :
    Option Rows × Nat × Option SqlError × List String :=
  let statement := constructSelect table columns conditions
  let c := Count table conditions qerr scanRes
  let count := c.1
  let cerr := c.2.1
  let issued := c.2.2
  if cerr.isSome || count == 0 then (none, count, cerr, issued)
  else (queryRes.1, count, queryRes.2, issued ++ [statement])

/-- Go `Server.Verify`: counts rows of `information_schema.schemata`
whose `schema_name` matches `dbName`, then branches on the count.  The
named return `verified` starts at its zero value `false` and is never
assigned `true` on any path. -/
def Verify (dbName : String) (qerr : Option SqlError) (scanRes : Option Nat) :
    Bool × Option SqlError :=
  let c := Count "information_schema.schemata"
    (some [{ Statement := "schema_name = ?", Glue := "" }]) qerr scanRes
  let count := c.1
  match c.2.1 with
  | some e => (false, some e)
  | none =>
    if count = 0 then (false, none)
    else if count > 1 then
      (false, some { operation := "DB Verify", statement := "",
                     message := "Invalid database count? [" ++ toString count ++ "]" })
    else (false, none)

/-- Go `TableNameGuide` struct with fields `Glue`, `Pre`, `Override`,
`Post`, `Plural`. -/
structure TableNameGuide where
  Glue : String
  Pre : String
  Override : String
  Post : String
  Plural : Bool
  deriving DecidableEq, Repr

/-- Go `TableNameGuide.GetName`, translated clause by clause from the
source: override test, pluralization, pre, then post. -/
def TableNameGuide.GetName (tng : TableNameGuide) (inName : String) : String :=
  let outName := if tng.Override.length > 0 then tng.Override else inName
  let outName := if tng.Plural then outName ++ "s" else outName
  let outName := if tng.Pre.length > 0 then tng.Pre ++ tng.Glue ++ outName else outName
  if tng.Post.length > 0 then outName ++ tng.Glue ++ tng.Post else outName

/-- The spec's description of name resolution, written from the spec's
words: start from the override if set else the base name; append "s" if
pluralizing; prepend the pre string plus separator if non-empty; append
the separator plus post string if non-empty. -/
def specResolve (tng : TableNameGuide) (base : String) : String :=
  let n0 := if tng.Override ≠ "" then tng.Override else base
  let n1 := if tng.Plural then n0 ++ "s" else n0
  let n2 := if tng.Pre ≠ "" then tng.Pre ++ tng.Glue ++ n1 else n1
  if tng.Post ≠ "" then n2 ++ tng.Glue ++ tng.Post else n2

/-- One target column, as the spec's `FieldSpec`.  This is what the Go
`InitTable` reads off a struct field via the fatih/structs library:
`name` is `field.Name()`, `sqlType` is `field.Tag("sql")`, `legacyName`
is `field.Tag("sqlRename")` (the empty string when the tag is absent),
and `modifyInPlace` is whether `field.Tag("sqlModify") == "true"`. -/
structure Field where
  name : String
  sqlType : String
  legacyName : String
  modifyInPlace : Bool
  deriving DecidableEq, Repr

/-- The spec's `TargetSchema`: the resolved table name (Go computes it
from `structs.Name(v)` and an optional `TableNameGuide` before step 1)
and the ordered field list. -/
structure Schema where
  tableName : String
  fields : List Field
  deriving DecidableEq, Repr

/-- The SQL statements `InitTable` builds and executes, one constructor
per statement shape occurring in the source. -/
inductive Stmt where
  | createTable (table : String) (columns : List (String × String))
  | changeColumn (table oldName newName sqlType : String)
  | addColumn (table column sqlType : String)
  | modifyColumn (table column sqlType : String)
  deriving DecidableEq, Repr

/-- Whether a statement is an `ALTER TABLE ... ADD COLUMN`. -/
def Stmt.isAdd : Stmt → Bool
  | .addColumn _ _ _ => true
  | _ => false

/-- Whether a statement is an `ALTER TABLE ... CHANGE COLUMN`. -/
def Stmt.isChange : Stmt → Bool
  | .changeColumn _ _ _ _ => true
  | _ => false

/-- Whether a statement is an `ALTER TABLE ... MODIFY`. -/
def Stmt.isModify : Stmt → Bool
  | .modifyColumn _ _ _ => true
  | _ => false

/-- Whether an ALTER statement touches the column named `c` (as old or
new name of a rename, or as the added/modified column). -/
def Stmt.altersColumn : Stmt → String → Bool
  | .createTable _ _, _ => false
  | .changeColumn _ o n _, c => o == c || n == c
  | .addColumn _ col _, c => col == c
  | .modifyColumn _ col _, c => col == c

/-- Errors `InitTable` can return: the introspection query failing, or
the database rejecting an executed DDL statement. -/
inductive InitError where
  | introspectError
  | execError (st : Stmt)
  deriving DecidableEq, Repr

/-- A live table state: `none` when the table does not exist, otherwise
its ordered list of column names. -/
def colsOf (db : Option (List String)) : List String := db.getD []

/-- MySQL semantics of `CREATE TABLE IF NOT EXISTS`: creates the table
with the given columns when absent, otherwise leaves it unchanged. -/
def applyCreate (db : Option (List String)) (names : List String) :
    Option (List String) :=
  match db with
  | none => some names
  | some cs => some cs

/-- MySQL semantics of `ALTER TABLE ... CHANGE COLUMN old new type`:
fails when `old` is absent or when `new` already names another column
(duplicate column name), otherwise renames `old` to `new` in place. -/
def applyChange (cs : List String) (old new : String) :
    Except Unit (List String) :=
  if old ∈ cs then
    if new ∈ cs ∧ new ≠ old then Except.error ()
    else Except.ok (cs.map fun c => if c = old then new else c)
  else Except.error ()

/-- MySQL semantics of `ALTER TABLE ... ADD COLUMN`: fails on a
duplicate column name, otherwise appends the column. -/
def applyAdd (cs : List String) (c : String) : Except Unit (List String) :=
  if c ∈ cs then Except.error () else Except.ok (cs ++ [c])

/-- MySQL semantics of `ALTER TABLE ... MODIFY`: fails when the column
is absent, otherwise leaves the column set unchanged. -/
def applyModify (cs : List String) (c : String) : Except Unit (List String) :=
  if c ∈ cs then Except.ok cs else Except.error ()

/-- Go map lookup on `namesToFields` (name to field, built by inserting
fields in declaration order, so a later field overwrites an earlier one
with the same name). -/
def lookupField : List Field → String → Option Field
  | [], _ => none
  | f :: fs, n =>
    match lookupField fs n with
    | some g => some g
    | none => if f.name == n then some f else none

/-- The entries of the Go map `namesToFields`, one field per name (the
last field declared with that name, as map insertion overwrites).  The
Go map's iteration order is unspecified; this embedding fixes it to the
declaration order of the surviving entries. -/
def dedupByName : List Field → List Field
  | [] => []
  | f :: fs => if fs.any (fun g => g.name == f.name) then dedupByName fs
               else f :: dedupByName fs

/-- Go map insert with overwrite, on an association list. -/
def insertAssoc : List (String × String) → String → String → List (String × String)
  | [], k, v => [(k, v)]
  | (k0, v0) :: rest, k, v =>
    if k0 == k then (k0, v) :: rest else (k0, v0) :: insertAssoc rest k v

/-- Go map lookup on an association list. -/
def lookupAssoc : List (String × String) → String → Option String
  | [], _ => none
  | (k0, v0) :: rest, k => if k0 == k then some v0 else lookupAssoc rest k

/-- Go `sqlRenames` map: for every field whose `sqlRename` tag is
non-empty, record `legacyName -> name`. -/
def buildRenames (fields : List Field) : List (String × String) :=
  (dedupByName fields).foldl
    (fun acc f =>
      if f.legacyName == "" then acc
      else insertAssoc acc f.legacyName f.name)
    []

/-- The rename loop of `InitTable`: for each introspected column name
appearing as a key of `sqlRenames`, build and execute
`ALTER TABLE ... CHANGE COLUMN old new <sql tag of new>`, aborting on
the first failure.  Returns the issued statements, the resulting column
list, and the error if any. -/
def renameLoop (tbl : String) (fields : List Field)
    (renames : List (String × String)) :
    List String → List String → List Stmt × List String × Option InitError
  | [], cols => ([], cols, none)
  | cn :: cns, cols =>
    match lookupAssoc renames cn with
    | none => renameLoop tbl fields renames cns cols
    | some newName =>
      let ty := match lookupField fields newName with
        | some f => f.sqlType
        | none => ""
      let st := Stmt.changeColumn tbl cn newName ty
      match applyChange cols cn newName with
      | Except.error _ => ([st], cols, some (InitError.execError st))
      | Except.ok cols2 =>
        let r := renameLoop tbl fields renames cns cols2
        (st :: r.1, r.2.1, r.2.2)

/-- The add-or-modify loop of `InitTable`: for each field name (in
declaration order, via `structs.Names`), issue an ADD COLUMN when the
name is not in the introspected (pre-rename) column list `columnNames`,
else a MODIFY when the field's `sqlModify` tag is "true", aborting on
the first failure.  `cols` is the live column list the statements
execute against. -/
def addLoop (tbl : String) (fields : List Field) (columnNames : List String) :
    List String → List String → List Stmt × List String × Option InitError
  | [], cols => ([], cols, none)
  | n :: ns, cols =>
    match lookupField fields n with
    | none => addLoop tbl fields columnNames ns cols
    | some f =>
      if n ∈ columnNames then
        if f.modifyInPlace then
          let st := Stmt.modifyColumn tbl n f.sqlType
          match applyModify cols n with
          | Except.error _ => ([st], cols, some (InitError.execError st))
          | Except.ok cols2 =>
            let r := addLoop tbl fields columnNames ns cols2
            (st :: r.1, r.2.1, r.2.2)
        else addLoop tbl fields columnNames ns cols
      else
        let st := Stmt.addColumn tbl n f.sqlType
        match applyAdd cols n with
        | Except.error _ => ([st], cols, some (InitError.execError st))
        | Except.ok cols2 =>
          let r := addLoop tbl fields columnNames ns cols2
          (st :: r.1, r.2.1, r.2.2)

/-- The `CREATE TABLE IF NOT EXISTS` statement of step 1: columns are
the schema's fields in declaration order, each under its current name
with its `sql` tag. -/
def createStmt (s : Schema) : Stmt :=
  Stmt.createTable s.tableName (s.fields.map fun f => (f.name, f.sqlType))

/-- The outcome of one `InitTable` call: every statement it executed in
order, the resulting table state, and the returned error if any. -/
structure InitResult where
  stmts : List Stmt
  db : Option (List String)
  err : Option InitError
  deriving DecidableEq, Repr

/-- Go `Database.InitTable`, the schema reconciler, over a live table
state `db0`.  `introspectOK` is the driver's disposition for the
column-introspection query of step 2 (`false` = the query fails).
Step order as in the source: create-if-absent, introspect the live
column names, build the rename map, rename matching columns, then add
or modify each field, aborting on the first failure. -/
def InitTable (s : Schema) (db0 : Option (List String)) :
    Bool → InitResult
  | false =>
    ⟨[createStmt s], applyCreate db0 (s.fields.map Field.name),
     some InitError.introspectError⟩
  | true =>
    let columnNames := colsOf (applyCreate db0 (s.fields.map Field.name))
    let ren := renameLoop s.tableName s.fields (buildRenames s.fields)
      columnNames columnNames
    match ren.2.2 with
    | some e => ⟨createStmt s :: ren.1, some ren.2.1, some e⟩
    | none =>
      let ad := addLoop s.tableName s.fields columnNames
        (s.fields.map Field.name) ren.2.1
      ⟨createStmt s :: ren.1 ++ ad.1, some ad.2.1, ad.2.2⟩

/-- The column list the introspection query of step 2 reports: the live
columns after step 1's create. -/
def introspected (s : Schema) (db0 : Option (List String)) : List String :=
  colsOf (applyCreate db0 (s.fields.map Field.name))

/-- What the add-or-modify loop contributes for one field name, when no
earlier statement failed: an ADD when the name is missing from the
introspected column list, a MODIFY when present and flagged, nothing
otherwise. -/
def addContrib (tbl : String) (fields : List Field)
    (columnNames : List String) (n : String) : Option Stmt :=
  match lookupField fields n with
  | none => none
  | some f =>
    if n ∈ columnNames then
      if f.modifyInPlace then some (Stmt.modifyColumn tbl n f.sqlType) else none
    else some (Stmt.addColumn tbl n f.sqlType)

/-- The column the add-or-modify loop appends for one field name, if
any. -/
def addedName (fields : List Field) (columnNames : List String)
    (n : String) : Option String :=
  match lookupField fields n with
  | none => none
  | some _ => if n ∈ columnNames then none else some n

/-! ## Helper lemmas -/

theorem string_length_pos (s : String) : 0 < s.length ↔ s ≠ "" := by
  cases s with
  | mk data => cases data <;> simp [String.length, String.ext_iff]

/-! ## Claims -/

/-- Claim C1 (code bug): against a table holding only the legacy column
`old_x` and a schema with the single field `{name x, legacyName old_x}`,
`InitTable` renames `old_x` to `x` but then, checking the pre-rename
column list, still issues `ALTER TABLE ADD COLUMN x`, which the
database rejects as a duplicate column, so the call returns an error;
the table does end up with column `x` and without `old_x`. -/
theorem claim1_rename_then_add_eval :
    InitTable ⟨"t", [⟨"x", "INT", "old_x", false⟩]⟩ (some ["old_x"]) true =
      ⟨[Stmt.createTable "t" [("x", "INT")],
        Stmt.changeColumn "t" "old_x" "x" "INT",
        Stmt.addColumn "t" "x" "INT"],
       some ["x"],
       some (InitError.execError (Stmt.addColumn "t" "x" "INT"))⟩ := by
  decide

/-- Claim C2 (counterexample): the schema with the single field
`{name a, legacyName a}` has fields unique by name, yet the second of
two consecutive `InitTable` runs from a clean database still issues a
`CHANGE COLUMN` statement, contradicting "the second call issues zero
ADD and zero CHANGE statements". -/
theorem claim2_counterexample :
    ((⟨"t", [⟨"a", "INT", "a", false⟩]⟩ : Schema).fields.map Field.name).Nodup ∧
    (InitTable ⟨"t", [⟨"a", "INT", "a", false⟩]⟩
        (InitTable ⟨"t", [⟨"a", "INT", "a", false⟩]⟩ none true).db
        true).stmts.any Stmt.isChange = true := by
  decide

/-- Claim C4: when the column-introspection query of step 2 fails,
`InitTable` returns the introspection error at once, having executed
only the step-1 CREATE statement — no ADD, MODIFY or CHANGE statement
is issued afterward. -/
theorem claim4_introspection_abort (s : Schema) (db0 : Option (List String)) :
    InitTable s db0 false =
      ⟨[createStmt s], applyCreate db0 (s.fields.map Field.name),
       some InitError.introspectError⟩ :=
  rfl

/-- Claim C5: `TableNameGuide.GetName` resolves names exactly as the
spec describes — override (if non-empty) or base, then pluralize, then
prepend the pre string, then append the post string — and the spec's
two examples compute as stated. -/
theorem claim5_getName_resolution :
    (∀ (tng : TableNameGuide) (inName : String),
      tng.GetName inName = specResolve tng inName) ∧
    TableNameGuide.GetName ⟨"_", "app", "", "", true⟩ "user" = "app_users" ∧
    TableNameGuide.GetName ⟨"", "", "accounts", "", false⟩ "user" = "accounts" := by
  refine ⟨fun tng inName => ?_, by decide, by decide⟩
  unfold TableNameGuide.GetName specResolve
  simp only [gt_iff_lt, string_length_pos]

/-- Claim C6: the first statement `InitTable` executes is always the
`CREATE TABLE IF NOT EXISTS` built from the schema's fields in their
declared order, each column under the field's current name with its
`sql` type expression. -/
theorem claim6_create_first (s : Schema) (db0 : Option (List String)) (ok : Bool) :
    (InitTable s db0 ok).stmts.head? =
      some (Stmt.createTable s.tableName
        (s.fields.map fun f => (f.name, f.sqlType))) := by
  cases ok
  · rfl
  · simp only [InitTable]
    cases (renameLoop s.tableName s.fields (buildRenames s.fields)
        (colsOf (applyCreate db0 (s.fields.map Field.name)))
        (colsOf (applyCreate db0 (s.fields.map Field.name)))).2.2 <;>
      simp [createStmt]

/-- Claim C8: `Server.Verify` returns `verified = false` on every path,
whatever the database name and however the underlying COUNT query
responds; in particular on a count of exactly 1 it returns `false` with
a nil error. -/
theorem claim8_verify_never_true :
    (∀ (dbName : String) (qerr : Option SqlError) (scanRes : Option Nat),
      (Verify dbName qerr scanRes).1 = false) ∧
    ∀ (dbName : String), Verify dbName none (some 1) = (false, none) := by
  constructor
  · intro dbName qerr scanRes
    unfold Verify Count
    rcases qerr with _ | e
    · rcases scanRes with _ | n
      · rfl
      · simp only []
        split
        · rfl
        · split <;> rfl
    · rfl
  · intro dbName
    rfl

/-- Claim C9: `Database.Count` discards the row-scan error — when the
COUNT query itself succeeds but the scan fails, it returns count 0 with
a nil error, the very same result as a genuine zero count. -/
theorem claim9_count_discards_scan_error (table : String)
    (conds : Option (List Condition)) :
    Count table conds none none =
      (0, none, [constructSelect table countStr conds]) ∧
    Count table conds none none = Count table conds none (some 0) :=
  ⟨rfl, rfl⟩

/-- Claim C10: `Database.Select` runs the COUNT query first; whenever
the count errors or is zero it returns a nil row cursor having issued
only the COUNT statement, and the SELECT statement is issued exactly
when the count succeeded and is non-zero. -/
theorem claim10_select_gated_on_count (table : String) (columns : List String)
    (conds : Option (List Condition)) (qerr : Option SqlError)
    (scanRes : Option Nat) (queryRes : Option Rows × Option SqlError) :
    ((Count table conds qerr scanRes).2.1.isSome = true ∨
        (Count table conds qerr scanRes).1 = 0 →
      Select table columns conds qerr scanRes queryRes =
        (none, (Count table conds qerr scanRes).1,
         (Count table conds qerr scanRes).2.1,
         [constructSelect table countStr conds])) ∧
    ((Count table conds qerr scanRes).2.1 = none →
        (Count table conds qerr scanRes).1 ≠ 0 →
      Select table columns conds qerr scanRes queryRes =
        (queryRes.1, (Count table conds qerr scanRes).1, queryRes.2,
         [constructSelect table countStr conds,
          constructSelect table columns conds])) := by
  constructor
  · intro h
    rcases qerr with _ | e
    · rcases scanRes with _ | n
      · rfl
      · simp only [Count, Option.isSome_none, Bool.false_eq_true, false_or] at h
        simp [Select, Count, h]
    · rfl
  · intro h1 h2
    rcases qerr with _ | e
    · rcases scanRes with _ | n
      · simp [Count] at h2
      · simp only [Count] at h2 ⊢
        simp [Select, Count, h2]
    · simp [Count] at h1

/-- Witness for C10 at concrete inputs: with a count of 0 only the
COUNT statement is issued and no cursor is returned; with a count of 3
the SELECT statement is issued after the COUNT statement. -/
theorem claim10_select_gated_on_count_witness :
    Select "t" ["a"] none none (some 0) (some 7, none) =
      (none, 0, none, ["SELECT COUNT(*) FROM t"]) ∧
    Select "t" ["a"] none none (some 3) (some 7, none) =
      (some 7, 3, none, ["SELECT COUNT(*) FROM t", "SELECT a FROM t"]) := by
  constructor
  · have h := (claim10_select_gated_on_count "t" ["a"] none none (some 0)
      (some 7, none)).1 (Or.inr rfl)
    simpa using h
  · have h := (claim10_select_gated_on_count "t" ["a"] none none (some 3)
      (some 7, none)).2 rfl (by decide)
    simpa using h

/-- Claim C7 (counterexample): in the schema with fields
`[{x, legacyName old_x}, {b, modifyInPlace true}]` run against a table
with columns `[old_x, b]`, the column `b` is present in the introspected
column set and its field is flagged `modifyInPlace`, yet not a single
ALTER statement naming `b` is issued: the run aborts on the failing
`ADD COLUMN x` before reaching `b`, contradicting "exactly one MODIFY
statement is issued for it". -/
theorem claim7_counterexample :
    "b" ∈ introspected ⟨"t", [⟨"x", "INT", "old_x", false⟩, ⟨"b", "INT", "", true⟩]⟩
        (some ["old_x", "b"]) ∧
    (InitTable ⟨"t", [⟨"x", "INT", "old_x", false⟩, ⟨"b", "INT", "", true⟩]⟩
        (some ["old_x", "b"]) true).stmts.filter
        (fun st => st.altersColumn "b") = [] := by
  decide

/-! ## Lemmas about the lookup helpers -/

theorem lookupField_eq_none (fields : List Field) (n : String)
    (h : n ∉ fields.map Field.name) : lookupField fields n = none := by
  induction fields with
  | nil => rfl
  | cons f fs ih =>
    simp only [List.map_cons, List.mem_cons, not_or] at h
    have hne : f.name ≠ n := fun e => h.1 e.symm
    simp [lookupField, ih h.2, hne]

theorem lookupField_nodup (fields : List Field) (f : Field)
    (hnd : (fields.map Field.name).Nodup) (hf : f ∈ fields) :
    lookupField fields f.name = some f := by
  induction fields with
  | nil => cases hf
  | cons g gs ih =>
    simp only [List.map_cons, List.nodup_cons] at hnd
    rcases List.mem_cons.mp hf with h | h
    · subst h
      have h0 : lookupField gs f.name = none :=
        lookupField_eq_none gs f.name hnd.1
      simp [lookupField, h0]
    · simp [lookupField, ih hnd.2 h]

theorem lookupAssoc_insertAssoc (l : List (String × String)) (k v c : String)
    (h : lookupAssoc (insertAssoc l k v) c ≠ none) :
    c = k ∨ lookupAssoc l c ≠ none := by
  induction l with
  | nil =>
    simp only [insertAssoc, lookupAssoc] at h
    by_cases hkc : (k == c) = true
    · exact Or.inl (beq_iff_eq.mp hkc).symm
    · simp [hkc] at h
  | cons p rest ih =>
    obtain ⟨k0, v0⟩ := p
    simp only [insertAssoc] at h
    by_cases hk0 : (k0 == k) = true
    · rw [if_pos hk0] at h
      simp only [lookupAssoc] at h ⊢
      by_cases hc : (k0 == c) = true
      · right; simp [hc]
      · rw [if_neg hc] at h
        right; rw [if_neg hc]; exact h
    · rw [if_neg hk0] at h
      simp only [lookupAssoc] at h ⊢
      by_cases hc : (k0 == c) = true
      · right; simp [hc]
      · rw [if_neg hc] at h
        rcases ih h with h2 | h2
        · exact Or.inl h2
        · right; rw [if_neg hc]; exact h2

theorem dedupByName_subset (fields : List Field) (f : Field)
    (h : f ∈ dedupByName fields) : f ∈ fields := by
  induction fields with
  | nil => cases h
  | cons g gs ih =>
    simp only [dedupByName] at h
    by_cases hc : (gs.any fun x => x.name == g.name) = true
    · rw [if_pos hc] at h
      exact List.mem_cons_of_mem _ (ih h)
    · rw [if_neg hc] at h
      rcases List.mem_cons.mp h with h2 | h2
      · rw [h2]; exact List.mem_cons_self g gs
      · exact List.mem_cons_of_mem _ (ih h2)

theorem lookupAssoc_foldl_renames (gs : List Field)
    (acc : List (String × String)) (c : String)
    (h : lookupAssoc
        (gs.foldl (fun acc f =>
          if f.legacyName == "" then acc
          else insertAssoc acc f.legacyName f.name) acc) c ≠ none) :
    lookupAssoc acc c ≠ none ∨
      ∃ f ∈ gs, f.legacyName ≠ "" ∧ f.legacyName = c := by
  induction gs generalizing acc with
  | nil => exact Or.inl h
  | cons g gs ih =>
    simp only [List.foldl_cons] at h
    rcases ih _ h with h2 | h2
    · by_cases hg : (g.legacyName == "") = true
      · rw [if_pos hg] at h2
        exact Or.inl h2
      · rw [if_neg hg] at h2
        have hne : g.legacyName ≠ "" := fun e => hg (by simp [e])
        rcases lookupAssoc_insertAssoc _ _ _ _ h2 with he | he
        · exact Or.inr ⟨g, List.mem_cons_self g gs, hne, he.symm⟩
        · exact Or.inl he
    · obtain ⟨f, hf, hp⟩ := h2
      exact Or.inr ⟨f, List.mem_cons_of_mem _ hf, hp⟩

theorem lookupAssoc_buildRenames (fields : List Field) (c : String)
    (h : lookupAssoc (buildRenames fields) c ≠ none) :
    ∃ f ∈ fields, f.legacyName ≠ "" ∧ f.legacyName = c := by
  unfold buildRenames at h
  rcases lookupAssoc_foldl_renames _ _ _ h with h2 | h2
  · simp [lookupAssoc] at h2
  · obtain ⟨f, hf, hp⟩ := h2
    exact ⟨f, dedupByName_subset _ _ hf, hp⟩

/-! ## Lemmas about the reconciliation loops -/

theorem renameLoop_noop (tbl : String) (fields : List Field)
    (renames : List (String × String)) (cns cols : List String)
    (h : ∀ cn ∈ cns, lookupAssoc renames cn = none) :
    renameLoop tbl fields renames cns cols = ([], cols, none) := by
  induction cns with
  | nil => rfl
  | cons cn cns ih =>
    have h1 := h cn (List.mem_cons_self cn cns)
    simp only [renameLoop, h1]
    exact ih fun c hc => h c (List.mem_cons_of_mem _ hc)

theorem renameLoop_mem (tbl : String) (fields : List Field)
    (renames : List (String × String)) (c : String)
    (hc : lookupAssoc renames c = none) :
    ∀ (cns cols : List String), c ∈ cols →
      c ∈ (renameLoop tbl fields renames cns cols).2.1 := by
  intro cns
  induction cns with
  | nil => intro cols h; exact h
  | cons cn cns ih =>
    intro cols h
    simp only [renameLoop]
    cases hl : lookupAssoc renames cn with
    | none => exact ih cols h
    | some newName =>
      have hne : c ≠ cn := by
        intro e; rw [e, hl] at hc; cases hc
      dsimp only
      cases hap : applyChange cols cn newName with
      | error u => exact h
      | ok cols2 =>
        dsimp only
        apply ih
        unfold applyChange at hap
        split at hap
        · split at hap
          · cases hap
          · injection hap with e
            rw [← e]
            exact List.mem_map.mpr ⟨c, h, by simp [hne]⟩
        · cases hap

theorem addLoop_mem (tbl : String) (fields : List Field)
    (columnNames : List String) (c : String) :
    ∀ (ns cols : List String), c ∈ cols →
      c ∈ (addLoop tbl fields columnNames ns cols).2.1 := by
  intro ns
  induction ns with
  | nil => intro cols h; exact h
  | cons n ns ih =>
    intro cols h
    simp only [addLoop]
    cases hf : lookupField fields n with
    | none => exact ih cols h
    | some f =>
      dsimp only
      by_cases hn : n ∈ columnNames
      · rw [if_pos hn]
        by_cases hm : f.modifyInPlace = true
        · rw [if_pos hm]
          cases hap : applyModify cols n with
          | error u => exact h
          | ok cols2 =>
            dsimp only
            apply ih
            unfold applyModify at hap
            split at hap
            · injection hap with e
              rw [← e]; exact h
            · cases hap
        · rw [if_neg hm]
          exact ih cols h
      · rw [if_neg hn]
        cases hap : applyAdd cols n with
        | error u => exact h
        | ok cols2 =>
          dsimp only
          apply ih
          unfold applyAdd at hap
          split at hap
          · cases hap
          · injection hap with e
            rw [← e]
            exact List.mem_append_left _ h

theorem addLoop_chars (tbl : String) (fields : List Field)
    (columnNames : List String) :
    ∀ (ns cols : List String), ns.Nodup →
      (∀ n ∈ ns, (n ∈ cols ↔ n ∈ columnNames)) →
      addLoop tbl fields columnNames ns cols =
        (ns.filterMap (addContrib tbl fields columnNames),
         cols ++ ns.filterMap (addedName fields columnNames), none) := by
  intro ns
  induction ns with
  | nil => intro cols _ _; simp [addLoop]
  | cons n ns ih =>
    intro cols hnd hmem
    have hn := hmem n (List.mem_cons_self n ns)
    rw [List.nodup_cons] at hnd
    have hmem2 : ∀ m ∈ ns, (m ∈ cols ↔ m ∈ columnNames) :=
      fun m hm => hmem m (List.mem_cons_of_mem _ hm)
    simp only [addLoop]
    cases hf : lookupField fields n with
    | none =>
      have hc : addContrib tbl fields columnNames n = none := by
        simp [addContrib, hf]
      have ha : addedName fields columnNames n = none := by
        simp [addedName, hf]
      simp only [List.filterMap_cons, hc, ha]
      exact ih cols hnd.2 hmem2
    | some f =>
      dsimp only
      by_cases hncol : n ∈ columnNames
      · rw [if_pos hncol]
        have hcmem : n ∈ cols := hn.mpr hncol
        have ha : addedName fields columnNames n = none := by
          simp [addedName, hf, hncol]
        by_cases hm : f.modifyInPlace = true
        · rw [if_pos hm]
          have hap : applyModify cols n = Except.ok cols := by
            simp [applyModify, hcmem]
          rw [hap]
          dsimp only
          have hc : addContrib tbl fields columnNames n =
              some (Stmt.modifyColumn tbl n f.sqlType) := by
            simp [addContrib, hf, hncol, hm]
          simp only [List.filterMap_cons, hc, ha]
          rw [ih cols hnd.2 hmem2]
        · rw [if_neg hm]
          have hc : addContrib tbl fields columnNames n = none := by
            simp [addContrib, hf, hncol, hm]
          simp only [List.filterMap_cons, hc, ha]
          exact ih cols hnd.2 hmem2
      · rw [if_neg hncol]
        have hcmem : n ∉ cols := fun hx => hncol (hn.mp hx)
        have hap : applyAdd cols n = Except.ok (cols ++ [n]) := by
          simp [applyAdd, hcmem]
        rw [hap]
        dsimp only
        have hc : addContrib tbl fields columnNames n =
            some (Stmt.addColumn tbl n f.sqlType) := by
          simp [addContrib, hf, hncol]
        have ha : addedName fields columnNames n = some n := by
          simp [addedName, hf, hncol]
        have hmem3 : ∀ m ∈ ns, (m ∈ cols ++ [n] ↔ m ∈ columnNames) := by
          intro m hm
          have hmn : m ≠ n := by
            intro e; rw [e] at hm; exact hnd.1 hm
          rw [List.mem_append]
          constructor
          · rintro (h1 | h1)
            · exact (hmem2 m hm).mp h1
            · simp at h1; exact absurd h1 hmn
          · intro h1
            exact Or.inl ((hmem2 m hm).mpr h1)
        simp only [List.filterMap_cons, hc, ha]
        rw [ih (cols ++ [n]) hnd.2 hmem3]
        simp

/-- When no field's non-empty legacy name matches an introspected
column, the rename loop is a no-op and `InitTable` reduces to the
CREATE statement followed by the add-or-modify loop's contributions. -/
theorem InitTable_norename (s : Schema) (db0 : Option (List String))
    (hleg : ∀ f ∈ s.fields, f.legacyName = "" ∨ f.legacyName ∉ introspected s db0)
    (hnodup : (s.fields.map Field.name).Nodup) :
    InitTable s db0 true =
      ⟨createStmt s :: (s.fields.map Field.name).filterMap
          (addContrib s.tableName s.fields (introspected s db0)),
       some (introspected s db0 ++ (s.fields.map Field.name).filterMap
          (addedName s.fields (introspected s db0))),
       none⟩ := by
  have hnoren : ∀ cn ∈ introspected s db0,
      lookupAssoc (buildRenames s.fields) cn = none := by
    intro cn hcn
    by_contra hne
    obtain ⟨f, hf, hleg2, heq⟩ := lookupAssoc_buildRenames _ _ hne
    rcases hleg f hf with h | h
    · exact hleg2 h
    · rw [heq] at h
      exact h hcn
  simp only [InitTable]
  rw [renameLoop_noop s.tableName s.fields (buildRenames s.fields)
    (colsOf (applyCreate db0 (s.fields.map Field.name)))
    (colsOf (applyCreate db0 (s.fields.map Field.name))) hnoren]
  dsimp only
  rw [addLoop_chars s.tableName s.fields
    (colsOf (applyCreate db0 (s.fields.map Field.name)))
    (s.fields.map Field.name)
    (colsOf (applyCreate db0 (s.fields.map Field.name)))
    hnodup (fun n _ => Iff.rfl)]
  rfl

/-- On fields all present among the introspected columns, the
add-or-modify contributions are exactly the MODIFY statements of the
flagged fields. -/
theorem filterMap_addContrib_modifies (tbl : String) (fields : List Field)
    (columnNames : List String) :
    ∀ gs : List Field,
      (∀ g ∈ gs, lookupField fields g.name = some g ∧ g.name ∈ columnNames) →
      (gs.map Field.name).filterMap (addContrib tbl fields columnNames) =
        (gs.filter fun g => g.modifyInPlace).map
          (fun g => Stmt.modifyColumn tbl g.name g.sqlType) := by
  intro gs
  induction gs with
  | nil => intro _; rfl
  | cons g gs ih =>
    intro h
    have hg := h g (List.mem_cons_self g gs)
    have h2 : ∀ x ∈ gs, lookupField fields x.name = some x ∧ x.name ∈ columnNames :=
      fun x hx => h x (List.mem_cons_of_mem _ hx)
    have hc : addContrib tbl fields columnNames g.name =
        if g.modifyInPlace then some (Stmt.modifyColumn tbl g.name g.sqlType)
        else none := by
      simp [addContrib, hg.1, hg.2]
    by_cases hm : g.modifyInPlace = true
    · simp only [List.map_cons, List.filterMap_cons, hc, hm, if_true,
        List.filter_cons, List.map_cons]
      rw [ih h2]
    · simp only [List.map_cons, List.filterMap_cons, hc, hm, if_false,
        List.filter_cons, Bool.false_eq_true]
      exact ih h2

/-- On field names all present among the introspected columns, the
add-or-modify loop appends no column. -/
theorem filterMap_addedName_nil (fields : List Field) (columnNames : List String) :
    ∀ ns : List String, (∀ n ∈ ns, n ∈ columnNames) →
      ns.filterMap (addedName fields columnNames) = [] := by
  intro ns
  induction ns with
  | nil => intro _; rfl
  | cons n ns ih =>
    intro h
    have hn := h n (List.mem_cons_self n ns)
    have ha : addedName fields columnNames n = none := by
      cases hf : lookupField fields n <;> simp [addedName, hf, hn]
    simp only [List.filterMap_cons, ha]
    exact ih fun m hm => h m (List.mem_cons_of_mem _ hm)

/-- In a list of MODIFY statements there is no ADD and no CHANGE, and
filtering for MODIFY keeps everything. -/
theorem filter_of_all_modify :
    ∀ l : List Stmt, (∀ st ∈ l, st.isModify = true) →
      l.filter Stmt.isAdd = [] ∧ l.filter Stmt.isChange = [] ∧
      l.filter Stmt.isModify = l := by
  intro l
  induction l with
  | nil => intro _; exact ⟨rfl, rfl, rfl⟩
  | cons st l ih =>
    intro h
    have hst := h st (List.mem_cons_self st l)
    have h2 := ih fun x hx => h x (List.mem_cons_of_mem _ hx)
    cases st with
    | modifyColumn t c ty =>
      simp only [List.filter_cons, Stmt.isAdd, Stmt.isChange, Stmt.isModify,
        Bool.false_eq_true, if_false, if_true]
      exact ⟨h2.1, h2.2.1, by rw [h2.2.2]⟩
    | createTable t cs => simp [Stmt.isModify] at hst
    | changeColumn t o nn ty => simp [Stmt.isModify] at hst
    | addColumn t c ty => simp [Stmt.isModify] at hst

/-- Claim C2 (amended): for every target schema whose fields are unique
by name and whose legacy names do not collide with any field name,
running `InitTable` twice from a clean database succeeds both times,
yields a table whose columns are exactly the field names, and the
second call issues zero ADD COLUMN and zero CHANGE COLUMN statements —
only the idempotent MODIFY statements of the `modifyInPlace` fields. -/
theorem claim2_idempotent (s : Schema)
    (hnodup : (s.fields.map Field.name).Nodup)
    (hleg : ∀ f ∈ s.fields,
      f.legacyName = "" ∨ f.legacyName ∉ s.fields.map Field.name) :
    (InitTable s none true).err = none ∧
    (InitTable s (InitTable s none true).db true).err = none ∧
    colsOf (InitTable s (InitTable s none true).db true).db =
      s.fields.map Field.name ∧
    (InitTable s (InitTable s none true).db true).stmts.filter Stmt.isAdd = [] ∧
    (InitTable s (InitTable s none true).db true).stmts.filter Stmt.isChange = [] ∧
    (InitTable s (InitTable s none true).db true).stmts.filter Stmt.isModify =
      (s.fields.filter fun f => f.modifyInPlace).map
        (fun f => Stmt.modifyColumn s.tableName f.name f.sqlType) := by
  have hall : ∀ g ∈ s.fields,
      lookupField s.fields g.name = some g ∧ g.name ∈ s.fields.map Field.name :=
    fun g hg => ⟨lookupField_nodup _ _ hnodup hg, List.mem_map_of_mem _ hg⟩
  have hcontrib : (s.fields.map Field.name).filterMap
      (addContrib s.tableName s.fields (s.fields.map Field.name)) =
      (s.fields.filter fun g => g.modifyInPlace).map
        (fun g => Stmt.modifyColumn s.tableName g.name g.sqlType) :=
    filterMap_addContrib_modifies _ _ _ _ hall
  have hadded : (s.fields.map Field.name).filterMap
      (addedName s.fields (s.fields.map Field.name)) = [] :=
    filterMap_addedName_nil _ _ _ (fun _ hn => hn)
  have h1 : InitTable s none true =
      ⟨createStmt s :: (s.fields.filter fun g => g.modifyInPlace).map
          (fun g => Stmt.modifyColumn s.tableName g.name g.sqlType),
       some (s.fields.map Field.name), none⟩ := by
    rw [InitTable_norename s none hleg hnodup]
    have hintro : introspected s none = s.fields.map Field.name := rfl
    rw [hintro, hcontrib, hadded, List.append_nil]
  have h2 : InitTable s (some (s.fields.map Field.name)) true =
      ⟨createStmt s :: (s.fields.filter fun g => g.modifyInPlace).map
          (fun g => Stmt.modifyColumn s.tableName g.name g.sqlType),
       some (s.fields.map Field.name), none⟩ := by
    rw [InitTable_norename s (some (s.fields.map Field.name)) hleg hnodup]
    have hintro : introspected s (some (s.fields.map Field.name)) =
        s.fields.map Field.name := rfl
    rw [hintro, hcontrib, hadded, List.append_nil]
  have hml : ∀ st ∈ (s.fields.filter fun g => g.modifyInPlace).map
      (fun g => Stmt.modifyColumn s.tableName g.name g.sqlType),
      st.isModify = true := by
    intro st hst
    obtain ⟨g, _, rfl⟩ := List.mem_map.mp hst
    rfl
  have hfl := filter_of_all_modify _ hml
  simp only [h1]
  simp only [h2]
  refine ⟨by trivial, by trivial, by trivial, ?_, ?_, ?_⟩
  · simp only [List.filter_cons, createStmt, Stmt.isAdd, Bool.false_eq_true,
      if_false]
    exact hfl.1
  · simp only [List.filter_cons, createStmt, Stmt.isChange, Bool.false_eq_true,
      if_false]
    exact hfl.2.1
  · simp only [List.filter_cons, createStmt, Stmt.isModify, Bool.false_eq_true,
      if_false]
    exact hfl.2.2

/-- Witness for the amended C2 at a concrete schema with one flagged
and one unflagged field: both runs succeed and the second run's MODIFY
statements are exactly the flagged field's. -/
theorem claim2_idempotent_witness :
    (InitTable ⟨"t", [⟨"a", "INT", "", true⟩, ⟨"b", "TEXT", "", false⟩]⟩
        none true).err = none ∧
    (InitTable ⟨"t", [⟨"a", "INT", "", true⟩, ⟨"b", "TEXT", "", false⟩]⟩
        (InitTable ⟨"t", [⟨"a", "INT", "", true⟩, ⟨"b", "TEXT", "", false⟩]⟩
          none true).db true).stmts.filter Stmt.isModify =
      [Stmt.modifyColumn "t" "a" "INT"] := by
  have h := claim2_idempotent
    ⟨"t", [⟨"a", "INT", "", true⟩, ⟨"b", "TEXT", "", false⟩]⟩
    (by decide) (by decide)
  exact ⟨h.1, h.2.2.2.2.2.trans (by decide)⟩

/-- Claim C3: reconciliation never drops a column — for every schema,
every database state and either disposition of the introspection query,
a column that exists in the table but is mentioned by no field (neither
as a name nor as a legacy name) still exists when `InitTable` returns,
whether or not the call succeeded. -/
theorem claim3_never_drops (s : Schema) (db0 : Option (List String))
    (ok : Bool) (c : String) (hc : c ∈ colsOf db0)
    (hname : c ∉ s.fields.map Field.name)
    (hleg : ∀ f ∈ s.fields, f.legacyName ≠ c) :
    c ∈ colsOf (InitTable s db0 ok).db := by
  obtain ⟨cs, rfl⟩ : ∃ cs, db0 = some cs := by
    cases db0 with
    | none => simp [colsOf] at hc
    | some cs => exact ⟨cs, rfl⟩
  have hcs : colsOf (applyCreate (some cs) (s.fields.map Field.name)) = cs := rfl
  have hlook : lookupAssoc (buildRenames s.fields) c = none := by
    by_contra hne
    obtain ⟨f, hf, _, heq⟩ := lookupAssoc_buildRenames _ _ hne
    exact hleg f hf heq
  cases ok with
  | false => exact hc
  | true =>
    simp only [InitTable]
    have hmem : c ∈ (renameLoop s.tableName s.fields (buildRenames s.fields)
        (colsOf (applyCreate (some cs) (s.fields.map Field.name)))
        (colsOf (applyCreate (some cs) (s.fields.map Field.name)))).2.1 :=
      renameLoop_mem _ _ _ _ hlook _ _ (by rw [hcs]; exact hc)
    cases hren : (renameLoop s.tableName s.fields (buildRenames s.fields)
        (colsOf (applyCreate (some cs) (s.fields.map Field.name)))
        (colsOf (applyCreate (some cs) (s.fields.map Field.name)))).2.2 with
    | some e =>
      dsimp only [colsOf]
      exact hmem
    | none =>
      dsimp only [colsOf]
      exact addLoop_mem _ _ _ _ _ _ hmem

/-- Witness for C3: an extra column `legacy_unused`, matching no field
name and no legacy name, survives a full reconciliation run. -/
theorem claim3_never_drops_witness :
    "legacy_unused" ∈ colsOf (InitTable ⟨"t", [⟨"x", "INT", "", false⟩]⟩
      (some ["legacy_unused"]) true).db :=
  claim3_never_drops ⟨"t", [⟨"x", "INT", "", false⟩]⟩
    (some ["legacy_unused"]) true "legacy_unused"
    (by decide) (by decide) (by decide)

/-- A contribution of the add-or-modify loop for field name `n` touches
column `c` exactly when `n` is `c`. -/
theorem contrib_alters (tbl : String) (fields : List Field)
    (columnNames : List String) (n c : String) (st : Stmt)
    (h : addContrib tbl fields columnNames n = some st) :
    st.altersColumn c = (n == c) := by
  unfold addContrib at h
  cases hf : lookupField fields n with
  | none => rw [hf] at h; cases h
  | some g =>
    rw [hf] at h
    simp only at h
    by_cases hn : n ∈ columnNames
    · rw [if_pos hn] at h
      by_cases hm : g.modifyInPlace = true
      · rw [if_pos hm] at h
        injection h with e
        rw [← e]
        rfl
      · rw [if_neg hm] at h
        cases h
    · rw [if_neg hn] at h
      injection h with e
      rw [← e]
      rfl

/-- Filtering the add-or-modify contributions for statements touching
column `c` is filtering the field names for `c` first. -/
theorem filterMap_contrib_filter_alters (tbl : String) (fields : List Field)
    (columnNames : List String) (c : String) :
    ∀ ns : List String,
      (ns.filterMap (addContrib tbl fields columnNames)).filter
          (fun st => st.altersColumn c) =
        (ns.filter fun n => n == c).filterMap
          (addContrib tbl fields columnNames) := by
  intro ns
  induction ns with
  | nil => rfl
  | cons n ns ih =>
    by_cases hnc : (n == c) = true
    · cases hcon : addContrib tbl fields columnNames n with
      | none =>
        simp only [List.filterMap_cons, hcon, List.filter_cons, hnc, if_true]
        exact ih
      | some st =>
        have hal := contrib_alters _ _ _ _ c _ hcon
        simp only [List.filterMap_cons, hcon, List.filter_cons, hal, hnc,
          if_true]
        rw [ih]
    · cases hcon : addContrib tbl fields columnNames n with
      | none =>
        simp only [List.filterMap_cons, hcon, List.filter_cons, hnc,
          Bool.false_eq_true, if_false]
        exact ih
      | some st =>
        have hal := contrib_alters _ _ _ _ c _ hcon
        simp only [List.filterMap_cons, hcon, List.filter_cons, hal, hnc,
          Bool.false_eq_true, if_false]
        exact ih

theorem filter_beq_not_mem (c : String) :
    ∀ l : List String, c ∉ l → (l.filter fun n => n == c) = [] := by
  intro l
  induction l with
  | nil => intro _; rfl
  | cons x l ih =>
    intro h
    have hx : x ≠ c := fun e => h (by rw [e]; exact List.mem_cons_self c l)
    simp only [List.filter_cons, beq_iff_eq, hx, if_false]
    exact ih fun hm => h (List.mem_cons_of_mem _ hm)

theorem filter_beq_nodup (c : String) :
    ∀ l : List String, l.Nodup → c ∈ l → (l.filter fun n => n == c) = [c] := by
  intro l
  induction l with
  | nil => intro _ h; cases h
  | cons x l ih =>
    intro hnd hc
    rw [List.nodup_cons] at hnd
    rcases List.mem_cons.mp hc with h | h
    · rw [← h] at hnd ⊢
      simp only [List.filter_cons, beq_self_eq_true, if_true]
      rw [filter_beq_not_mem c l hnd.1]
    · have hx : x ≠ c := by
        intro e; rw [e] at hnd; exact hnd.1 h
      simp only [List.filter_cons, beq_iff_eq, hx, if_false]
      exact ih hnd.2 h

/-- Claim C7 (amended): provided the schema's fields are unique by name
and no field's non-empty legacy name matches an introspected column (so
step 4 performs no rename), then for every field whose name is present
in the introspected column set: if `modifyInPlace` is set, exactly one
ALTER statement naming that column is issued, namely the MODIFY with
the field's name and sql type; if not, no ALTER statement naming that
column is issued at all. -/
theorem claim7_add_or_modify (s : Schema) (db0 : Option (List String))
    (f : Field)
    (hnodup : (s.fields.map Field.name).Nodup)
    (hleg : ∀ g ∈ s.fields,
      g.legacyName = "" ∨ g.legacyName ∉ introspected s db0)
    (hf : f ∈ s.fields)
    (hpres : f.name ∈ introspected s db0) :
    (f.modifyInPlace = true →
      (InitTable s db0 true).stmts.filter
          (fun st => st.altersColumn f.name) =
        [Stmt.modifyColumn s.tableName f.name f.sqlType]) ∧
    (f.modifyInPlace = false →
      (InitTable s db0 true).stmts.filter
          (fun st => st.altersColumn f.name) = []) := by
  rw [InitTable_norename s db0 hleg hnodup]
  have hcst : Stmt.altersColumn (createStmt s) f.name = false := rfl
  have hmem : f.name ∈ s.fields.map Field.name := List.mem_map_of_mem _ hf
  have hrest : ((s.fields.map Field.name).filterMap
      (addContrib s.tableName s.fields (introspected s db0))).filter
      (fun st => st.altersColumn f.name) =
      [f.name].filterMap (addContrib s.tableName s.fields (introspected s db0)) := by
    rw [filterMap_contrib_filter_alters,
      filter_beq_nodup f.name _ hnodup hmem]
  have hcon : addContrib s.tableName s.fields (introspected s db0) f.name =
      if f.modifyInPlace then
        some (Stmt.modifyColumn s.tableName f.name f.sqlType)
      else none := by
    simp [addContrib, lookupField_nodup _ _ hnodup hf, hpres]
  constructor
  · intro hm
    simp only [List.filter_cons, hcst, Bool.false_eq_true, if_false]
    rw [hrest]
    simp [hcon, hm]
  · intro hm
    simp only [List.filter_cons, hcst, Bool.false_eq_true, if_false]
    rw [hrest]
    simp [hcon, hm]

/-- Witness for the amended C7: with columns `[a, b]` already present
and fields `[{a, modifyInPlace true}, {b, modifyInPlace false}, {c}]`,
exactly one MODIFY naming `a` is issued and no ALTER naming `b` is
issued. -/
theorem claim7_add_or_modify_witness :
    (InitTable ⟨"t", [⟨"a", "INT", "", true⟩, ⟨"b", "TEXT", "", false⟩,
        ⟨"c", "INT", "", false⟩]⟩ (some ["a", "b"]) true).stmts.filter
        (fun st => st.altersColumn "a") =
      [Stmt.modifyColumn "t" "a" "INT"] ∧
    (InitTable ⟨"t", [⟨"a", "INT", "", true⟩, ⟨"b", "TEXT", "", false⟩,
        ⟨"c", "INT", "", false⟩]⟩ (some ["a", "b"]) true).stmts.filter
        (fun st => st.altersColumn "b") = [] := by
  constructor
  · exact (claim7_add_or_modify
      ⟨"t", [⟨"a", "INT", "", true⟩, ⟨"b", "TEXT", "", false⟩,
        ⟨"c", "INT", "", false⟩]⟩ (some ["a", "b"])
      ⟨"a", "INT", "", true⟩ (by decide) (by decide) (by decide)
      (by decide)).1 rfl
  · exact (claim7_add_or_modify
      ⟨"t", [⟨"a", "INT", "", true⟩, ⟨"b", "TEXT", "", false⟩,
        ⟨"c", "INT", "", false⟩]⟩ (some ["a", "b"])
      ⟨"b", "TEXT", "", false⟩ (by decide) (by decide) (by decide)
      (by decide)).2 rfl

end Sqlssx
